import Mathlib

/-!
Verification development for the `jsonschema` package of gradientlabs-ai/go-openai
(file `jsonschema/json.go`, the reflective generator variant).

The Go code is shallowly embedded:
- `Definition` mirrors the Go struct `Definition` (a recursive schema node).
  Go's `Enum []string` (nil vs non-nil slice) is `Option (List String)`,
  `Properties map[string]Definition` (nil vs allocated map) is
  `Option (List (String × Definition))` — an association list with
  overwrite-on-insert, matching Go map assignment semantics,
  `Items *Definition` is `Option Definition`, and
  `AdditionalProperties *bool` is `Option Bool`.
- Go's `reflect.Type` is `GoType`; struct types are referenced by a numeric
  identity (as `reflect.Type` values have identity), and their field lists
  live in a type environment `TypeEnv`, which embeds the ambient Go type
  graph (possibly cyclic through `GoType.struct` references).
- `map[reflect.Type]bool` (the `seen` set) is a `List Nat` of struct ids;
  the Go idiom `seen[t] = true; defer delete(seen, t)` is path-scoped, so it
  embeds as passing `id :: seen` to the recursion over the fields.
- Go's `(Definition, error)` results are `Definition × Option String`.
- JSON output of `encoding/json` is modeled as a `Json` tree (struct fields
  in declaration order, `omitempty` omission, map keys sorted).
-/

/-- JSON documents as produced by the serializer (only the fragment needed). -/
inductive Json : Type where
  | str (s : String)
  | bool (b : Bool)
  | arr (elems : List Json)
  | obj (fields : List (String × Json))

/-- Go: `type DataType string`. -/
abbrev DataType : Type := String

/-- Go: `Object DataType = "object"`. -/
def DataType.Object : DataType := "object"

/-- Go: `Number DataType = "number"`. -/
def DataType.Number : DataType := "number"

/-- Go: `Integer DataType = "integer"`. -/
def DataType.Integer : DataType := "integer"

/-- Go: `String DataType = "string"`. -/
def DataType.String : DataType := "string"

/-- Go: `Array DataType = "array"`. -/
def DataType.Array : DataType := "array"

/-- Go: `Null DataType = "null"`. -/
def DataType.Null : DataType := "null"

/-- Go: `Boolean DataType = "boolean"`. -/
def DataType.Boolean : DataType := "boolean"

/-- The Go struct `Definition` from jsonschema/json.go (as a recursive node it
must be an inductive; accessors are defined below). Constructor argument order:
Type, Description, Enum, Properties, Required, Items, AdditionalProperties. -/
inductive Definition : Type where
  | mk (dataType : DataType) (description : String) (enum : Option (List String))
      (properties : Option (List (String × Definition)))
      (required : List String) (items : Option Definition)
      (additionalProperties : Option Bool) : Definition

/-- Accessor for the Go field `Type`. -/
def Definition.dataType : Definition → DataType
  | .mk t _ _ _ _ _ _ => t

/-- Accessor for the Go field `Description`. -/
def Definition.description : Definition → String
  | .mk _ d _ _ _ _ _ => d

/-- Accessor for the Go field `Enum` (`none` = nil slice). -/
def Definition.enum : Definition → Option (List String)
  | .mk _ _ e _ _ _ _ => e

/-- Accessor for the Go field `Properties` (`none` = nil map). -/
def Definition.properties : Definition → Option (List (String × Definition))
  | .mk _ _ _ p _ _ _ => p

/-- Accessor for the Go field `Required`. -/
def Definition.required : Definition → List String
  | .mk _ _ _ _ r _ _ => r

/-- Accessor for the Go field `Items` (`none` = nil pointer). -/
def Definition.items : Definition → Option Definition
  | .mk _ _ _ _ _ i _ => i

/-- Accessor for the Go field `AdditionalProperties` (`none` = nil pointer). -/
def Definition.additionalProperties : Definition → Option Bool
  | .mk _ _ _ _ _ _ a => a

/-- The Go zero value `Definition\x7b\x7d`. -/
def Definition.empty : Definition := .mk "" "" none none [] none none

/-- Go struct assignment `fieldSchema.Description = desc`. -/
def Definition.setDescription : Definition → String → Definition
  | .mk t _ e p r i a, d => .mk t d e p r i a

/-- Go struct assignment `fieldSchema.Enum = ...`. -/
def Definition.setEnum : Definition → Option (List String) → Definition
  | .mk t d _ p r i a, e => .mk t d e p r i a

/-- The empty-object node `Definition\x7bType: Object, Properties: map[string]Definition\x7b\x7d\x7d`
returned by the cycle guard and by the map case. -/
def emptyObjectDef : Definition := .mk DataType.Object "" none (some []) [] none none

/-- Go `strings.Split(s, ",")`, implemented character-by-character (the
separator is the single character ','): splits at every comma, yielding
(number of commas + 1) pieces; the empty string yields one empty piece. -/
def splitCommaAux : List Char → List (List Char)
  | [] => [[]]
  | c :: rest =>
    match splitCommaAux rest with
    | [] => [[c]]
    | h :: t => if c = ',' then [] :: h :: t else (c :: h) :: t

/-- Go `strings.Split(s, ",")` on `String`. -/
def splitComma (s : String) : List String :=
  (splitCommaAux s.data).map (fun l => String.mk l)

/-- The field-name resolution of generateStructSchema: `fieldName := field.Name`,
then if the json tag is non-empty and its first comma-separated part is
non-empty, that part is used instead. -/
def resolveFieldName (name jsonTag : String) : String :=
  if jsonTag = "" then name
  else
    match splitComma jsonTag with
    | [] => name
    | p :: _ => if p = "" then name else p

/-- The omitempty detection of generateStructSchema: scans the parts after the
first comma-separated part of the json tag for the literal "omitempty". -/
def hasOmitempty (jsonTag : String) : Bool :=
  if jsonTag = "" then false
  else
    match splitComma jsonTag with
    | [] => false
    | _ :: rest => rest.contains "omitempty"

/-- Go map assignment `properties[fieldName] = fieldSchema` on the association
list model: overwrite the existing binding, otherwise append. -/
def mapInsert (m : List (String × Definition)) (k : String) (v : Definition) :
    List (String × Definition) :=
  if m.any (fun p => p.1 = k) then
    m.map (fun p => if p.1 = k then (k, v) else p)
  else m ++ [(k, v)]

/-- Go `reflect.Type`, restricted to the kinds the generator distinguishes.
Struct types are referenced by identity (`id`); their fields live in a
`TypeEnv`. `otherKind` stands for every remaining reflect kind (Chan, Func,
Complex64, Complex128, Uintptr, ...), i.e. the `default:` arm of the switch. -/
inductive GoType : Type where
  | ptr (elem : GoType)
  | struct (id : Nat)
  | slice (elem : GoType)
  | array (elem : GoType)
  | map (key elem : GoType)
  | string
  | int | int8 | int16 | int32 | int64
  | uint | uint8 | uint16 | uint32 | uint64
  | float32 | float64
  | bool
  | interface
  | otherKind (kindName : String)
deriving DecidableEq, Repr

/-- Go `t.Elem()` for the kinds on which the generator calls it
(pointer/slice/array element type, map value type). -/
def goElem : GoType → GoType
  | .ptr e => e
  | .slice e => e
  | .array e => e
  | .map _ v => v
  | t => t

/-- One struct field as seen through `reflect.StructField`: name, exportedness,
and the three struct tags the generator reads (`json`,
`jsonschema_description`, `jsonschema_enum`; `""` = tag absent, which is what
`Tag.Get` returns then). -/
structure GoField : Type where
  name : String
  exported : Bool
  jsonTag : String
  descTag : String
  enumTag : String
  fieldType : GoType
deriving DecidableEq, Repr

/-- The ambient Go type graph: struct id ↦ declared field list. -/
abbrev TypeEnv : Type := List (Nat × List GoField)

/-- Field-list lookup for a struct id (Go: `t.NumField()` / `t.Field(i)`);
an id absent from the environment behaves as a fieldless struct. -/
def lookupFields (env : TypeEnv) (id : Nat) : List GoField :=
  match List.lookup id env with
  | some flds => flds
  | none => []

/-! Termination measure for the generator: lexicographic descent packed into
one natural number — the count of struct ids not yet on the recursion path
times a bound exceeding every field-list size, plus a structural size. -/

/-- Structural size of a type expression (the cycle guard, not this size,
bounds struct descent, so `struct` is a constant). -/
def GoType.mySize : GoType → Nat
  | .ptr e => 1 + e.mySize
  | .slice e => 2 + e.mySize
  | .array e => 2 + e.mySize
  | .map k v => 2 + k.mySize + v.mySize
  | .struct _ => 3
  | _ => 1

/-- Size of one field (strictly larger than its type's size). -/
def fieldSize (f : GoField) : Nat := 1 + f.fieldType.mySize

/-- Size of a field list. -/
def fieldsSize : List GoField → Nat
  | [] => 0
  | f :: rest => fieldSize f + fieldsSize rest

/-- Total size of all field lists in the environment. -/
def envFieldsSize : TypeEnv → Nat
  | [] => 0
  | (_, flds) :: rest => fieldsSize flds + envFieldsSize rest

/-- A bound strictly above every field list reachable from the environment. -/
def envBound (env : TypeEnv) : Nat := 1 + envFieldsSize env

/-- The struct ids declared by the environment. -/
def envKeys (env : TypeEnv) : Finset Nat := (env.map Prod.fst).toFinset

/-- Number of declared struct ids not yet on the recursion path. -/
def unseenCount (env : TypeEnv) (seen : List Nat) : Nat :=
  ((envKeys env).filter (fun i => i ∉ seen)).card

theorem unseenCount_cons_of_mem (env : TypeEnv) (id : Nat) (seen : List Nat)
    (hk : id ∈ envKeys env) (hs : id ∉ seen) :
    unseenCount env (id :: seen) < unseenCount env seen := by
  apply Finset.card_lt_card
  constructor
  · intro x hx
    simp only [Finset.mem_filter, List.mem_cons] at hx ⊢
    exact ⟨hx.1, fun h => hx.2 (Or.inr h)⟩
  · intro hsub
    have hid : id ∈ (envKeys env).filter (fun i => i ∉ seen) := by
      simp only [Finset.mem_filter]
      exact ⟨hk, hs⟩
    have := hsub hid
    simp only [Finset.mem_filter, List.mem_cons] at this
    exact this.2 (by simp)

theorem unseenCount_cons_of_not_mem (env : TypeEnv) (id : Nat) (seen : List Nat)
    (hk : id ∉ envKeys env) :
    unseenCount env (id :: seen) = unseenCount env seen := by
  unfold unseenCount
  congr 1
  apply Finset.filter_congr
  intro x hx
  have hxid : x ≠ id := by
    intro h
    exact hk (h ▸ hx)
  simp [List.mem_cons, hxid]

theorem lookup_eq_none_of_not_mem_keys (env : TypeEnv) (id : Nat)
    (hk : id ∉ envKeys env) : List.lookup id env = none := by
  induction env with
  | nil => rfl
  | cons p rest ih =>
    simp only [envKeys, List.map_cons, List.toFinset_cons, Finset.mem_insert,
      not_or] at hk
    rw [List.lookup]
    have hne : (id == p.1) = false := by
      simp only [beq_eq_false_iff_ne, ne_eq]
      exact hk.1
    rw [hne]
    apply ih
    simp only [envKeys]
    exact hk.2

theorem lookupFields_eq_nil_of_not_mem (env : TypeEnv) (id : Nat)
    (hk : id ∉ envKeys env) : lookupFields env id = [] := by
  unfold lookupFields
  rw [lookup_eq_none_of_not_mem_keys env id hk]

theorem fieldsSize_lookup_le (env : TypeEnv) (id : Nat) :
    fieldsSize (lookupFields env id) ≤ envFieldsSize env := by
  induction env with
  | nil => simp [lookupFields, List.lookup, fieldsSize]
  | cons p rest ih =>
    cases p with
    | mk k flds =>
      unfold lookupFields
      rw [List.lookup]
      unfold lookupFields at ih
      cases h : (id == k) with
      | true =>
        exact Nat.le_add_right _ _
      | false =>
        exact le_trans ih (Nat.le_add_left _ _)

theorem measure_step_lt (B u v x y : Nat) (hu : v < u) (hx : x < B + y) :
    v * B + x < u * B + y := by
  have h1 : v + 1 ≤ u := hu
  calc v * B + x < v * B + (B + y) := Nat.add_lt_add_left hx _
    _ = (v + 1) * B + y := by ring
    _ ≤ u * B + y := Nat.add_le_add_right (Nat.mul_le_mul_right _ h1) _

/-! The generator, mirroring jsonschema/json.go lines 160-295. The extra
hypothesis argument of `generateStructSchema` records the invariant under
which the Go code calls it (the cycle guard has just checked that the struct
is not on the path); it is needed only for termination. -/

mutual

/-- `generateSchema(t reflect.Type, seen map[reflect.Type]bool)`: dereference
pointers, apply the cycle guard for structs already on the path, then
dispatch on the kind exactly as the Go switch does. -/
def generateSchema (env : TypeEnv) (t : GoType) (seen : List Nat) :
    Definition × Option String :=
  match t with
  | .ptr e => generateSchema env e seen
  | .struct id =>
    if h : id ∈ seen then
      (emptyObjectDef, none)
    else
      generateStructSchema env id seen h
  | .slice e => generateArraySchema env (.slice e) seen
  | .array e => generateArraySchema env (.array e) seen
  | .map k v => generateMapSchema env (.map k v) seen
  | .string => (.mk DataType.String "" none none [] none none, none)
  | .int => (.mk DataType.Integer "" none none [] none none, none)
  | .int8 => (.mk DataType.Integer "" none none [] none none, none)
  | .int16 => (.mk DataType.Integer "" none none [] none none, none)
  | .int32 => (.mk DataType.Integer "" none none [] none none, none)
  | .int64 => (.mk DataType.Integer "" none none [] none none, none)
  | .uint => (.mk DataType.Integer "" none none [] none none, none)
  | .uint8 => (.mk DataType.Integer "" none none [] none none, none)
  | .uint16 => (.mk DataType.Integer "" none none [] none none, none)
  | .uint32 => (.mk DataType.Integer "" none none [] none none, none)
  | .uint64 => (.mk DataType.Integer "" none none [] none none, none)
  | .float32 => (.mk DataType.Number "" none none [] none none, none)
  | .float64 => (.mk DataType.Number "" none none [] none none, none)
  | .bool => (.mk DataType.Boolean "" none none [] none none, none)
  | .interface => (Definition.empty, none)
  | .otherKind _ => (.mk DataType.String "" none none [] none none, none)
termination_by unseenCount env seen * envBound env + t.mySize
decreasing_by
  · simp only [GoType.mySize]; omega
  · simp only [GoType.mySize]; omega
  · simp only [GoType.mySize, goElem]; omega
  · simp only [GoType.mySize, goElem]; omega
  · simp only [GoType.mySize, goElem]; omega

/-- `generateStructSchema(t reflect.Type, seen map[reflect.Type]bool)`: marks
the struct as on-path (`seen[t] = true; defer delete(seen, t)` becomes passing
`id :: seen` to the field walk), iterates the fields, and assembles the
object node. -/
def generateStructSchema (env : TypeEnv) (id : Nat) (seen : List Nat)
    (h : id ∉ seen) : Definition × Option String :=
  match goFields env (lookupFields env id) (id :: seen) [] [] with
  | (_, _, some e) => (Definition.empty, some e)
  | (props, req, none) =>
    (.mk DataType.Object "" none (some props) req none none, none)
termination_by unseenCount env seen * envBound env + 2
decreasing_by
  · by_cases hk : id ∈ envKeys env
    · rw [Nat.add_assoc]
      apply measure_step_lt
      · exact unseenCount_cons_of_mem env id seen hk h
      · have hle := fieldsSize_lookup_le env id
        simp only [envBound]
        omega
    · rw [unseenCount_cons_of_not_mem env id seen hk,
        lookupFields_eq_nil_of_not_mem env id hk]
      simp only [fieldsSize]
      omega

/-- The field loop of `generateStructSchema` (its `for i := 0; ...` body),
with the accumulated `properties` map and `required` slice threaded through;
the third result component is the propagated error. -/
def goFields (env : TypeEnv) (flds : List GoField) (seen : List Nat)
    (props : List (String × Definition)) (req : List String) :
    List (String × Definition) × List String × Option String :=
  match flds with
  | [] => (props, req, none)
  | f :: rest =>
    if f.exported = false then goFields env rest seen props req
    else if f.jsonTag = "-" then goFields env rest seen props req
    else
      let fieldName := resolveFieldName f.name f.jsonTag
      let isOmit := hasOmitempty f.jsonTag
      match generateSchema env f.fieldType seen with
      | (_, some e) => (props, req, some e)
      | (fieldSchema, none) =>
        let s1 := if f.descTag ≠ "" then fieldSchema.setDescription f.descTag
          else fieldSchema
        let s2 := if f.enumTag ≠ "" then s1.setEnum (some (splitComma f.enumTag))
          else s1
        goFields env rest seen (mapInsert props fieldName s2)
          (if isOmit then req else req ++ [fieldName])
termination_by unseenCount env seen * envBound env + 1 + fieldsSize flds
decreasing_by
  · simp only [fieldsSize, fieldSize]; omega
  · simp only [fieldsSize, fieldSize]; omega
  · simp only [fieldsSize, fieldSize]; omega
  · simp only [fieldsSize, fieldSize]; omega

/-- `generateArraySchema`: recurse on the element type, propagate its error,
otherwise wrap it as the `Items` of an array node. -/
def generateArraySchema (env : TypeEnv) (t : GoType) (seen : List Nat) :
    Definition × Option String :=
  match generateSchema env (goElem t) seen with
  | (_, some e) => (Definition.empty, some e)
  | (elemSchema, none) =>
    (.mk DataType.Array "" none none [] (some elemSchema) none, none)
termination_by unseenCount env seen * envBound env + 1 + (goElem t).mySize
decreasing_by
  · omega

/-- `generateMapSchema`: recurse on the value type (result discarded),
propagate its error, otherwise return the empty object node. -/
def generateMapSchema (env : TypeEnv) (t : GoType) (seen : List Nat) :
    Definition × Option String :=
  match generateSchema env (goElem t) seen with
  | (_, some e) => (Definition.empty, some e)
  | (_, none) =>
    (.mk DataType.Object "" none (some []) [] none none, none)
termination_by unseenCount env seen * envBound env + 1 + (goElem t).mySize
decreasing_by
  · omega

end

/-- `GenerateSchemaForType(v any)`: the argument is modeled by its reflected
dynamic type, `none` standing for an untyped nil (where `reflect.TypeOf`
returns a nil `reflect.Type`). In that case `generateSchema` immediately calls
`Kind()` on the nil interface and panics; the panic is modeled as a `none`
overall result (no `(Definition, error)` pair is ever returned). -/
def GenerateSchemaForType (env : TypeEnv) (v : Option GoType) :
    Option (Definition × Option String) :=
  match v with
  | none => none
  | some t => some (generateSchema env t [])

/-! The serializer: `Definition.MarshalJSON` composed with `encoding/json`.
A value receiver plus the `Alias` embedding means: normalize a nil
`Properties` map to an allocated empty map, then emit the struct fields in
declaration order, honoring each field's `omitempty`; nested `Definition`
values (map values, `Items`) are marshaled through the same method, and
`encoding/json` emits map keys in sorted order. -/

/-- Insertion step for sorting object fields by key. -/
def insertSorted (p : String × Json) : List (String × Json) → List (String × Json)
  | [] => [p]
  | q :: qs => if p.1 ≤ q.1 then p :: q :: qs else q :: insertSorted p qs

/-- Sort object fields by key ascending, as `encoding/json` does for maps. -/
def sortByKey (l : List (String × Json)) : List (String × Json) :=
  l.foldr insertSorted []

mutual

/-- `Definition.MarshalJSON`, as a JSON tree. Field order is the struct's
declaration order: type, description, enum, properties, required, items,
additionalProperties. Every field except `properties` carries `omitempty`
(zero string, empty slice, nil pointer omitted); `properties` has no
`omitempty` and the method replaces a nil map by an empty one first. -/
def marshalDefinition : Definition → Json
  | .mk ty ds en pr rq it ap =>
    Json.obj
      ((if ty = "" then [] else [("type", Json.str ty)]) ++
       (if ds = "" then [] else [("description", Json.str ds)]) ++
       (match en with
        | none => []
        | some l => if l = [] then [] else [("enum", Json.arr (l.map Json.str))]) ++
       [("properties", Json.obj (sortByKey (marshalPropsOpt pr)))] ++
       (match rq with
        | [] => []
        | r :: rs => [("required", Json.arr ((r :: rs).map Json.str))]) ++
       marshalItemsOpt it ++
       (match ap with
        | none => []
        | some b => [("additionalProperties", Json.bool b)]))

/-- Marshal the `Properties` map, a nil map having been normalized to empty. -/
def marshalPropsOpt : Option (List (String × Definition)) → List (String × Json)
  | none => []
  | some l => marshalProps l

/-- Marshal the entries of the `Properties` map (sorting happens afterward). -/
def marshalProps : List (String × Definition) → List (String × Json)
  | [] => []
  | (k, v) :: rest => (k, marshalDefinition v) :: marshalProps rest

/-- Marshal the `Items` pointer: nil is omitted (`omitempty`). -/
def marshalItemsOpt : Option Definition → List (String × Json)
  | none => []
  | some child => [("items", marshalDefinition child)]

end

/-- Key lookup in a JSON object (first binding wins); `none` on non-objects. -/
def Json.objLookup : Json → String → Option Json
  | .obj fields, k => List.lookup k fields
  | .str _, _ => none
  | .bool _, _ => none
  | .arr _, _ => none

theorem lookup_append_of_ne (k : String) (l1 l2 : List (String × Json))
    (h : ∀ p ∈ l1, p.1 ≠ k) :
    List.lookup k (l1 ++ l2) = List.lookup k l2 := by
  induction l1 with
  | nil => rfl
  | cons p rest ih =>
    cases p with
    | mk a b =>
      have ha : a ≠ k := h (a, b) (by simp)
      have hk : (k == a) = false := by
        simp only [beq_eq_false_iff_ne, ne_eq]
        exact fun hh => ha hh.symm
      simp only [List.cons_append, List.lookup, hk]
      exact ih fun p hp => h p (by simp [hp])

/-- Full characterization of key lookup in a marshaled `Definition`: one
conjunct per Go struct field, in declaration order. -/
theorem marshal_objLookup (d : Definition) :
    (marshalDefinition d).objLookup "type"
      = (if d.dataType = "" then none else some (Json.str d.dataType)) ∧
    (marshalDefinition d).objLookup "description"
      = (if d.description = "" then none else some (Json.str d.description)) ∧
    (marshalDefinition d).objLookup "enum"
      = (match d.enum with
         | none => none
         | some l => if l = [] then none else some (Json.arr (l.map Json.str))) ∧
    (marshalDefinition d).objLookup "properties"
      = some (Json.obj (sortByKey (marshalPropsOpt d.properties))) ∧
    (marshalDefinition d).objLookup "required"
      = (match d.required with
         | [] => none
         | r :: rs => some (Json.arr ((r :: rs).map Json.str))) ∧
    (marshalDefinition d).objLookup "items"
      = Option.map marshalDefinition d.items ∧
    (marshalDefinition d).objLookup "additionalProperties"
      = Option.map Json.bool d.additionalProperties := by
  cases d with
  | mk ty ds en pr rq it ap =>
    by_cases hty : ty = "" <;> by_cases hds : ds = "" <;>
      rcases en with _ | (_ | ⟨e0, es⟩) <;> rcases it with _ | child <;>
      rcases ap with _ | b <;> rcases rq with _ | ⟨r, rs⟩ <;>
      simp [marshalDefinition, marshalItemsOpt, Json.objLookup, List.lookup,
        Definition.dataType, Definition.description, Definition.enum,
        Definition.properties, Definition.required, Definition.items,
        Definition.additionalProperties, hty, hds]

/-! Node collection over a `Definition` tree and the generator invariant that
an enum, when present (non-nil), is never the empty list. -/

mutual

/-- All nodes of a `Definition` tree: the node itself, the nodes of every
property child, and the nodes under `Items`. -/
def Definition.nodes : Definition → List Definition
  | .mk t d e p r i a =>
    .mk t d e p r i a :: (nodesPropsOpt p ++ nodesItemsOpt i)

/-- Nodes under a possibly-nil `Properties` map. -/
def nodesPropsOpt : Option (List (String × Definition)) → List Definition
  | none => []
  | some l => nodesProps l

/-- Nodes under the entries of a `Properties` map. -/
def nodesProps : List (String × Definition) → List Definition
  | [] => []
  | (_, v) :: rest => v.nodes ++ nodesProps rest

/-- Nodes under a possibly-nil `Items` pointer. -/
def nodesItemsOpt : Option Definition → List Definition
  | none => []
  | some child => child.nodes

end

/-- Invariant: nowhere in the tree is `Enum` a non-nil empty list. -/
def EnumOk (d : Definition) : Prop := ∀ n ∈ d.nodes, n.enum ≠ some []

theorem enumOk_mk_iff (t d : String) (e : Option (List String))
    (p : Option (List (String × Definition))) (r : List String)
    (i : Option Definition) (a : Option Bool) :
    EnumOk (.mk t d e p r i a) ↔
      e ≠ some [] ∧ (∀ n ∈ nodesPropsOpt p, n.enum ≠ some []) ∧
        (∀ n ∈ nodesItemsOpt i, n.enum ≠ some []) := by
  unfold EnumOk
  simp only [Definition.nodes, List.mem_cons, List.mem_append]
  constructor
  · intro h
    refine ⟨?_, ?_, ?_⟩
    · have := h _ (Or.inl rfl)
      simpa [Definition.enum] using this
    · intro n hn
      exact h n (Or.inr (Or.inl hn))
    · intro n hn
      exact h n (Or.inr (Or.inr hn))
  · rintro ⟨h1, h2, h3⟩ n hn
    rcases hn with rfl | hn | hn
    · simpa [Definition.enum] using h1
    · exact h2 n hn
    · exact h3 n hn

theorem enumOk_leaf (t d : String) (r : List String) (a : Option Bool) :
    EnumOk (.mk t d none none r none a) := by
  rw [enumOk_mk_iff]
  simp [nodesPropsOpt, nodesItemsOpt]

theorem enumOk_emptyObjectDef : EnumOk emptyObjectDef := by
  unfold emptyObjectDef
  rw [enumOk_mk_iff]
  simp [nodesPropsOpt, nodesProps, nodesItemsOpt]

theorem enumOk_setDescription {d : Definition} (s : String) (h : EnumOk d) :
    EnumOk (d.setDescription s) := by
  cases d with
  | mk t d0 e p r i a =>
    rw [Definition.setDescription, enumOk_mk_iff]
    rw [enumOk_mk_iff] at h
    exact h

theorem enumOk_setEnum {d : Definition} {l : List String} (hl : l ≠ [])
    (h : EnumOk d) : EnumOk (d.setEnum (some l)) := by
  cases d with
  | mk t d0 e p r i a =>
    rw [Definition.setEnum, enumOk_mk_iff]
    rw [enumOk_mk_iff] at h
    exact ⟨by simpa using hl, h.2⟩

theorem splitCommaAux_ne_nil (l : List Char) : splitCommaAux l ≠ [] := by
  induction l with
  | nil => simp [splitCommaAux]
  | cons c rest ih =>
    rw [splitCommaAux]
    cases h : splitCommaAux rest with
    | nil =>
      show ([[c]] : List (List Char)) ≠ []
      simp
    | cons hd tl =>
      show (if c = ',' then [] :: hd :: tl else (c :: hd) :: tl) ≠ []
      split <;> simp

theorem splitComma_ne_nil (s : String) : splitComma s ≠ [] := by
  unfold splitComma
  simp [splitCommaAux_ne_nil]

theorem mapInsert_forall {P : Definition → Prop}
    {props : List (String × Definition)} {k : String} {v : Definition}
    (hp : ∀ q ∈ props, P q.2) (hv : P v) :
    ∀ q ∈ mapInsert props k v, P q.2 := by
  intro q hq
  unfold mapInsert at hq
  split at hq
  · rcases List.mem_map.mp hq with ⟨p0, hp0, heq⟩
    by_cases hk : p0.1 = k
    · rw [if_pos hk] at heq
      rw [← heq]
      exact hv
    · rw [if_neg hk] at heq
      rw [← heq]
      exact hp p0 hp0
  · rcases List.mem_append.mp hq with h1 | h1
    · exact hp q h1
    · simp only [List.mem_singleton] at h1
      rw [h1]
      exact hv

theorem nodesProps_forall {l : List (String × Definition)}
    (h : ∀ q ∈ l, EnumOk q.2) : ∀ n ∈ nodesProps l, n.enum ≠ some [] := by
  induction l with
  | nil => simp [nodesProps]
  | cons q rest ih =>
    rcases q with ⟨k, v⟩
    intro n hn
    simp only [nodesProps, List.mem_append] at hn
    rcases hn with hn | hn
    · exact h (k, v) (by simp) n hn
    · exact ih (fun q hq => h q (by simp [hq])) n hn


/-! Named unfolding equations for the generator, one per arm of the Go code
(the compiled recursion does not unfold definitionally). -/

theorem generateSchema_ptr (env : TypeEnv) (e : GoType) (seen : List Nat) :
    generateSchema env (.ptr e) seen = generateSchema env e seen := by
  rw [generateSchema.eq_1]

theorem generateSchema_struct_mem (env : TypeEnv) (id : Nat) (seen : List Nat)
    (h : id ∈ seen) :
    generateSchema env (.struct id) seen = (emptyObjectDef, none) := by
  rw [generateSchema.eq_2, dif_pos h]

theorem generateSchema_struct_not_mem (env : TypeEnv) (id : Nat) (seen : List Nat)
    (h : id ∉ seen) :
    generateSchema env (.struct id) seen = generateStructSchema env id seen h := by
  rw [generateSchema.eq_2, dif_neg h]

theorem generateSchema_slice (env : TypeEnv) (e : GoType) (seen : List Nat) :
    generateSchema env (.slice e) seen = generateArraySchema env (.slice e) seen := by
  rw [generateSchema.eq_3]

theorem generateSchema_array (env : TypeEnv) (e : GoType) (seen : List Nat) :
    generateSchema env (.array e) seen = generateArraySchema env (.array e) seen := by
  rw [generateSchema.eq_4]

theorem generateSchema_map (env : TypeEnv) (k v : GoType) (seen : List Nat) :
    generateSchema env (.map k v) seen = generateMapSchema env (.map k v) seen := by
  rw [generateSchema.eq_5]

theorem generateSchema_string (env : TypeEnv) (seen : List Nat) :
    generateSchema env .string seen
      = (.mk DataType.String "" none none [] none none, none) := by
  rw [generateSchema.eq_6]

theorem generateSchema_int (env : TypeEnv) (seen : List Nat) :
    generateSchema env .int seen
      = (.mk DataType.Integer "" none none [] none none, none) := by
  rw [generateSchema.eq_7]

theorem generateSchema_int8 (env : TypeEnv) (seen : List Nat) :
    generateSchema env .int8 seen
      = (.mk DataType.Integer "" none none [] none none, none) := by
  rw [generateSchema.eq_8]

theorem generateSchema_int16 (env : TypeEnv) (seen : List Nat) :
    generateSchema env .int16 seen
      = (.mk DataType.Integer "" none none [] none none, none) := by
  rw [generateSchema.eq_9]

theorem generateSchema_int32 (env : TypeEnv) (seen : List Nat) :
    generateSchema env .int32 seen
      = (.mk DataType.Integer "" none none [] none none, none) := by
  rw [generateSchema.eq_10]

theorem generateSchema_int64 (env : TypeEnv) (seen : List Nat) :
    generateSchema env .int64 seen
      = (.mk DataType.Integer "" none none [] none none, none) := by
  rw [generateSchema.eq_11]

theorem generateSchema_uint (env : TypeEnv) (seen : List Nat) :
    generateSchema env .uint seen
      = (.mk DataType.Integer "" none none [] none none, none) := by
  rw [generateSchema.eq_12]

theorem generateSchema_uint8 (env : TypeEnv) (seen : List Nat) :
    generateSchema env .uint8 seen
      = (.mk DataType.Integer "" none none [] none none, none) := by
  rw [generateSchema.eq_13]

theorem generateSchema_uint16 (env : TypeEnv) (seen : List Nat) :
    generateSchema env .uint16 seen
      = (.mk DataType.Integer "" none none [] none none, none) := by
  rw [generateSchema.eq_14]

theorem generateSchema_uint32 (env : TypeEnv) (seen : List Nat) :
    generateSchema env .uint32 seen
      = (.mk DataType.Integer "" none none [] none none, none) := by
  rw [generateSchema.eq_15]

theorem generateSchema_uint64 (env : TypeEnv) (seen : List Nat) :
    generateSchema env .uint64 seen
      = (.mk DataType.Integer "" none none [] none none, none) := by
  rw [generateSchema.eq_16]

theorem generateSchema_float32 (env : TypeEnv) (seen : List Nat) :
    generateSchema env .float32 seen
      = (.mk DataType.Number "" none none [] none none, none) := by
  rw [generateSchema.eq_17]

theorem generateSchema_float64 (env : TypeEnv) (seen : List Nat) :
    generateSchema env .float64 seen
      = (.mk DataType.Number "" none none [] none none, none) := by
  rw [generateSchema.eq_18]

theorem generateSchema_bool (env : TypeEnv) (seen : List Nat) :
    generateSchema env .bool seen
      = (.mk DataType.Boolean "" none none [] none none, none) := by
  rw [generateSchema.eq_19]

theorem generateSchema_interface (env : TypeEnv) (seen : List Nat) :
    generateSchema env .interface seen = (Definition.empty, none) := by
  rw [generateSchema.eq_20]

theorem generateSchema_otherKind (env : TypeEnv) (s : String) (seen : List Nat) :
    generateSchema env (.otherKind s) seen
      = (.mk DataType.String "" none none [] none none, none) := by
  rw [generateSchema.eq_21]

/-! No branch of the generator constructs an error, and every generated tree
satisfies the enum invariant. Proved by the same well-founded recursion as
the generator itself. -/

mutual

theorem generateSchema_ok (env : TypeEnv) (t : GoType) (seen : List Nat) :
    (generateSchema env t seen).2 = none ∧ EnumOk (generateSchema env t seen).1 := by
  cases t with
  | ptr e =>
    rw [generateSchema_ptr]
    exact generateSchema_ok env e seen
  | struct id =>
    by_cases h : id ∈ seen
    · rw [generateSchema_struct_mem env id seen h]
      exact ⟨rfl, enumOk_emptyObjectDef⟩
    · rw [generateSchema_struct_not_mem env id seen h]
      exact generateStructSchema_ok env id seen h
  | slice e =>
    rw [generateSchema_slice]
    exact generateArraySchema_ok env (.slice e) seen
  | array e =>
    rw [generateSchema_array]
    exact generateArraySchema_ok env (.array e) seen
  | map k v =>
    rw [generateSchema_map]
    exact generateMapSchema_ok env (.map k v) seen
  | string => rw [generateSchema_string]; exact ⟨rfl, enumOk_leaf _ _ _ _⟩
  | int => rw [generateSchema_int]; exact ⟨rfl, enumOk_leaf _ _ _ _⟩
  | int8 => rw [generateSchema_int8]; exact ⟨rfl, enumOk_leaf _ _ _ _⟩
  | int16 => rw [generateSchema_int16]; exact ⟨rfl, enumOk_leaf _ _ _ _⟩
  | int32 => rw [generateSchema_int32]; exact ⟨rfl, enumOk_leaf _ _ _ _⟩
  | int64 => rw [generateSchema_int64]; exact ⟨rfl, enumOk_leaf _ _ _ _⟩
  | uint => rw [generateSchema_uint]; exact ⟨rfl, enumOk_leaf _ _ _ _⟩
  | uint8 => rw [generateSchema_uint8]; exact ⟨rfl, enumOk_leaf _ _ _ _⟩
  | uint16 => rw [generateSchema_uint16]; exact ⟨rfl, enumOk_leaf _ _ _ _⟩
  | uint32 => rw [generateSchema_uint32]; exact ⟨rfl, enumOk_leaf _ _ _ _⟩
  | uint64 => rw [generateSchema_uint64]; exact ⟨rfl, enumOk_leaf _ _ _ _⟩
  | float32 => rw [generateSchema_float32]; exact ⟨rfl, enumOk_leaf _ _ _ _⟩
  | float64 => rw [generateSchema_float64]; exact ⟨rfl, enumOk_leaf _ _ _ _⟩
  | bool => rw [generateSchema_bool]; exact ⟨rfl, enumOk_leaf _ _ _ _⟩
  | interface => rw [generateSchema_interface]; exact ⟨rfl, enumOk_leaf _ _ _ _⟩
  | otherKind s => rw [generateSchema_otherKind]; exact ⟨rfl, enumOk_leaf _ _ _ _⟩
termination_by unseenCount env seen * envBound env + t.mySize
decreasing_by
  · simp only [GoType.mySize]; omega
  · simp only [GoType.mySize]; omega
  · simp only [GoType.mySize, goElem]; omega
  · simp only [GoType.mySize, goElem]; omega
  · simp only [GoType.mySize, goElem]; omega

theorem generateStructSchema_ok (env : TypeEnv) (id : Nat) (seen : List Nat)
    (h : id ∉ seen) :
    (generateStructSchema env id seen h).2 = none ∧
      EnumOk (generateStructSchema env id seen h).1 := by
  have hgo := goFields_ok env (lookupFields env id) (id :: seen) [] [] (by simp)
  rcases hgeq : goFields env (lookupFields env id) (id :: seen) [] [] with
    ⟨props, req, errOpt⟩
  rw [hgeq] at hgo
  rw [generateStructSchema.eq_1, hgeq]
  cases errOpt with
  | some e => exact absurd hgo.1 (by simp)
  | none =>
    refine ⟨rfl, ?_⟩
    rw [enumOk_mk_iff]
    refine ⟨by simp, ?_, by simp [nodesItemsOpt]⟩
    simp only [nodesPropsOpt]
    exact nodesProps_forall hgo.2
termination_by unseenCount env seen * envBound env + 2
decreasing_by
  · by_cases hk : id ∈ envKeys env
    · rw [Nat.add_assoc]
      apply measure_step_lt
      · exact unseenCount_cons_of_mem env id seen hk h
      · have hle := fieldsSize_lookup_le env id
        simp only [envBound]
        omega
    · rw [unseenCount_cons_of_not_mem env id seen hk,
        lookupFields_eq_nil_of_not_mem env id hk]
      simp only [fieldsSize]
      omega

theorem goFields_ok (env : TypeEnv) (flds : List GoField) (seen : List Nat)
    (props : List (String × Definition)) (req : List String)
    (hp : ∀ q ∈ props, EnumOk q.2) :
    (goFields env flds seen props req).2.2 = none ∧
      ∀ q ∈ (goFields env flds seen props req).1, EnumOk q.2 := by
  cases flds with
  | nil =>
    rw [goFields.eq_1]
    exact ⟨rfl, hp⟩
  | cons f rest =>
    rw [goFields.eq_2]
    by_cases he : f.exported = false
    · rw [if_pos he]
      exact goFields_ok env rest seen props req hp
    · rw [if_neg he]
      by_cases ht : f.jsonTag = "-"
      · rw [if_pos ht]
        exact goFields_ok env rest seen props req hp
      · rw [if_neg ht]
        have hgen := generateSchema_ok env f.fieldType seen
        rcases hgeq : generateSchema env f.fieldType seen with ⟨fieldSchema, errOpt⟩
        rw [hgeq] at hgen
        cases errOpt with
        | some e => exact absurd hgen.1 (by simp)
        | none =>
          have hs1 : EnumOk (if f.descTag ≠ "" then
              fieldSchema.setDescription f.descTag else fieldSchema) := by
            split
            · exact enumOk_setDescription _ hgen.2
            · exact hgen.2
          have hs2 : EnumOk (if f.enumTag ≠ "" then
              (if f.descTag ≠ "" then fieldSchema.setDescription f.descTag
                else fieldSchema).setEnum (some (splitComma f.enumTag))
              else (if f.descTag ≠ "" then fieldSchema.setDescription f.descTag
                else fieldSchema)) := by
            split
            · exact enumOk_setEnum (splitComma_ne_nil _) hs1
            · exact hs1
          exact goFields_ok env rest seen
            (mapInsert props (resolveFieldName f.name f.jsonTag)
              (if f.enumTag ≠ "" then
                (if f.descTag ≠ "" then fieldSchema.setDescription f.descTag
                  else fieldSchema).setEnum (some (splitComma f.enumTag))
                else (if f.descTag ≠ "" then fieldSchema.setDescription f.descTag
                  else fieldSchema)))
            (if hasOmitempty f.jsonTag then req
              else req ++ [resolveFieldName f.name f.jsonTag])
            (mapInsert_forall hp hs2)
termination_by unseenCount env seen * envBound env + 1 + fieldsSize flds
decreasing_by
  all_goals simp only [fieldsSize, fieldSize]; omega

theorem generateArraySchema_ok (env : TypeEnv) (t : GoType) (seen : List Nat) :
    (generateArraySchema env t seen).2 = none ∧
      EnumOk (generateArraySchema env t seen).1 := by
  have hgen := generateSchema_ok env (goElem t) seen
  rcases hgeq : generateSchema env (goElem t) seen with ⟨elemSchema, errOpt⟩
  rw [hgeq] at hgen
  rw [generateArraySchema.eq_1, hgeq]
  cases errOpt with
  | some e => exact absurd hgen.1 (by simp)
  | none =>
    refine ⟨rfl, ?_⟩
    rw [enumOk_mk_iff]
    refine ⟨by simp, by simp [nodesPropsOpt], ?_⟩
    simp only [nodesItemsOpt]
    exact hgen.2
termination_by unseenCount env seen * envBound env + 1 + (goElem t).mySize
decreasing_by
  · omega

theorem generateMapSchema_ok (env : TypeEnv) (t : GoType) (seen : List Nat) :
    (generateMapSchema env t seen).2 = none ∧
      EnumOk (generateMapSchema env t seen).1 := by
  have hgen := generateSchema_ok env (goElem t) seen
  rcases hgeq : generateSchema env (goElem t) seen with ⟨valueSchema, errOpt⟩
  rw [hgeq] at hgen
  rw [generateMapSchema.eq_1, hgeq]
  cases errOpt with
  | some e => exact absurd hgen.1 (by simp)
  | none =>
    refine ⟨rfl, ?_⟩
    rw [enumOk_mk_iff]
    exact ⟨by simp, by simp [nodesPropsOpt, nodesProps], by simp [nodesItemsOpt]⟩
termination_by unseenCount env seen * envBound env + 1 + (goElem t).mySize
decreasing_by
  · omega

end

/-! Closed-form characterization of the field loop: which fields are included,
what child node each yields, and which names become required. -/

/-- A field survives the loop's two skip checks: it is exported and its json
tag is not "-". -/
def includedField (f : GoField) : Bool := f.exported && !(f.jsonTag == "-")

/-- The resolved property name of a field. -/
def fieldKey (f : GoField) : String := resolveFieldName f.name f.jsonTag

/-- The child Definition stored for one included field: the recursively
generated schema with the description and enum tags applied on top. -/
def processField (env : TypeEnv) (seen : List Nat) (f : GoField) : Definition :=
  let base := (generateSchema env f.fieldType seen).1
  let s1 := if f.descTag ≠ "" then base.setDescription f.descTag else base
  if f.enumTag ≠ "" then s1.setEnum (some (splitComma f.enumTag)) else s1

/-- The properties map accumulated by the field loop. -/
def buildProps (env : TypeEnv) (seen : List Nat) (flds : List GoField)
    (props : List (String × Definition)) : List (String × Definition) :=
  flds.foldl (fun acc f =>
    if includedField f then mapInsert acc (fieldKey f) (processField env seen f)
    else acc) props

/-- The required names produced by the field loop: the resolved names of the
included fields without omitempty, in declaration order. -/
def requiredNames (flds : List GoField) : List String :=
  (flds.filter (fun f => includedField f && !hasOmitempty f.jsonTag)).map fieldKey

theorem buildProps_cons_skip (env : TypeEnv) (seen : List Nat) (f : GoField)
    (rest : List GoField) (props : List (String × Definition))
    (hinc : includedField f = false) :
    buildProps env seen (f :: rest) props = buildProps env seen rest props := by
  simp [buildProps, hinc]

theorem buildProps_cons_incl (env : TypeEnv) (seen : List Nat) (f : GoField)
    (rest : List GoField) (props : List (String × Definition))
    (hinc : includedField f = true) :
    buildProps env seen (f :: rest) props
      = buildProps env seen rest
          (mapInsert props (fieldKey f) (processField env seen f)) := by
  simp [buildProps, hinc]

theorem requiredNames_cons_skip (f : GoField) (rest : List GoField)
    (h : (includedField f && !hasOmitempty f.jsonTag) = false) :
    requiredNames (f :: rest) = requiredNames rest := by
  simp only [requiredNames, List.filter_cons, h]
  rfl

theorem requiredNames_cons_incl (f : GoField) (rest : List GoField)
    (h : (includedField f && !hasOmitempty f.jsonTag) = true) :
    requiredNames (f :: rest) = fieldKey f :: requiredNames rest := by
  simp only [requiredNames, List.filter_cons, h]
  rfl

/-- The field loop in closed form. -/
theorem goFields_eq (env : TypeEnv) (flds : List GoField) (seen : List Nat)
    (props : List (String × Definition)) (req : List String) :
    goFields env flds seen props req
      = (buildProps env seen flds props, req ++ requiredNames flds, none) := by
  induction flds generalizing props req with
  | nil =>
    rw [goFields.eq_1]
    simp [buildProps, requiredNames]
  | cons f rest ih =>
    rw [goFields.eq_2]
    by_cases he : f.exported = false
    · rw [if_pos he]
      have hinc : includedField f = false := by
        simp [includedField, he]
      rw [ih, buildProps_cons_skip env seen f rest props hinc,
        requiredNames_cons_skip f rest (by simp [hinc])]
    · rw [if_neg he]
      have hexp : f.exported = true := by
        cases hb : f.exported
        · exact absurd hb he
        · rfl
      by_cases ht : f.jsonTag = "-"
      · rw [if_pos ht]
        have hinc : includedField f = false := by
          simp [includedField, ht]
        rw [ih, buildProps_cons_skip env seen f rest props hinc,
          requiredNames_cons_skip f rest (by simp [hinc])]
      · rw [if_neg ht]
        have hinc : includedField f = true := by
          simp [includedField, hexp, ht]
        have herr := (generateSchema_ok env f.fieldType seen).1
        rcases hgeq : generateSchema env f.fieldType seen with ⟨fs, errOpt⟩
        rw [hgeq] at herr
        cases errOpt with
        | some e => exact absurd herr (by simp)
        | none =>
          have hpf : processField env seen f
              = (if f.enumTag ≠ "" then
                  (if f.descTag ≠ "" then fs.setDescription f.descTag
                    else fs).setEnum (some (splitComma f.enumTag))
                 else (if f.descTag ≠ "" then fs.setDescription f.descTag
                    else fs)) := by
            unfold processField
            rw [hgeq]
          show goFields env rest seen
              (mapInsert props (resolveFieldName f.name f.jsonTag)
                (if f.enumTag ≠ "" then
                  (if f.descTag ≠ "" then fs.setDescription f.descTag
                    else fs).setEnum (some (splitComma f.enumTag))
                 else (if f.descTag ≠ "" then fs.setDescription f.descTag
                    else fs)))
              (if hasOmitempty f.jsonTag = true then req
                else req ++ [resolveFieldName f.name f.jsonTag])
            = (buildProps env seen (f :: rest) props,
               req ++ requiredNames (f :: rest), none)
          rw [ih, buildProps_cons_incl env seen f rest props hinc, hpf]
          by_cases ho : hasOmitempty f.jsonTag = true
          · rw [if_pos ho, requiredNames_cons_skip f rest (by simp [ho])]
            rfl
          · rw [if_neg ho,
              requiredNames_cons_incl f rest
                (by simp [hinc, Bool.eq_false_iff.mpr ho])]
            simp [fieldKey, resolveFieldName]

/-- generateStructSchema in closed form: an object node whose properties are
the folded field map (fields processed with the struct id pushed onto the
path) and whose required list is the closed-form required names. -/
theorem generateStructSchema_eq (env : TypeEnv) (id : Nat) (seen : List Nat)
    (h : id ∉ seen) :
    generateStructSchema env id seen h
      = (.mk DataType.Object "" none
          (some (buildProps env (id :: seen) (lookupFields env id) []))
          (requiredNames (lookupFields env id)) none none, none) := by
  rw [generateStructSchema.eq_1, goFields_eq]
  rfl

/-- generateSchema on a struct type not on the path, in closed form. -/
theorem generateSchema_struct_eq (env : TypeEnv) (id : Nat) (seen : List Nat)
    (h : id ∉ seen) :
    generateSchema env (.struct id) seen
      = (.mk DataType.Object "" none
          (some (buildProps env (id :: seen) (lookupFields env id) []))
          (requiredNames (lookupFields env id)) none none, none) := by
  rw [generateSchema_struct_not_mem env id seen h, generateStructSchema_eq]

/-- generateArraySchema never errors and wraps the element schema as Items. -/
theorem generateArraySchema_eq (env : TypeEnv) (t : GoType) (seen : List Nat) :
    generateArraySchema env t seen
      = (.mk DataType.Array "" none none []
          (some (generateSchema env (goElem t) seen).1) none, none) := by
  have herr := (generateSchema_ok env (goElem t) seen).1
  rw [generateArraySchema.eq_1]
  rcases hgeq : generateSchema env (goElem t) seen with ⟨es, errOpt⟩
  rw [hgeq] at herr
  cases errOpt with
  | some e => exact absurd herr (by simp)
  | none => rfl

/-- generateMapSchema always collapses to the empty object node. -/
theorem generateMapSchema_eq (env : TypeEnv) (t : GoType) (seen : List Nat) :
    generateMapSchema env t seen
      = (.mk DataType.Object "" none (some []) [] none none, none) := by
  have herr := (generateSchema_ok env (goElem t) seen).1
  rw [generateMapSchema.eq_1]
  rcases hgeq : generateSchema env (goElem t) seen with ⟨vs, errOpt⟩
  rw [hgeq] at herr
  cases errOpt with
  | some e => exact absurd herr (by simp)
  | none => rfl

/-- Enum accessor after setEnum. -/
theorem enum_setEnum (d : Definition) (e : Option (List String)) :
    (d.setEnum e).enum = e := by
  cases d
  rfl

/-- Enum accessor after setDescription. -/
theorem enum_setDescription (d : Definition) (s : String) :
    (d.setDescription s).enum = d.enum := by
  cases d
  rfl

/-- The root node of every generated schema has no enum (only the enum tag of
an enclosing struct field ever sets one, on top of the returned child). -/
theorem generateSchema_root_enum (env : TypeEnv) (t : GoType) (seen : List Nat) :
    (generateSchema env t seen).1.enum = none := by
  induction t with
  | ptr e ih => rw [generateSchema_ptr]; exact ih
  | struct id =>
    by_cases h : id ∈ seen
    · rw [generateSchema_struct_mem env id seen h]; rfl
    · rw [generateSchema_struct_eq env id seen h]; rfl
  | slice e ih => rw [generateSchema_slice, generateArraySchema_eq]; rfl
  | array e ih => rw [generateSchema_array, generateArraySchema_eq]; rfl
  | map k v ih1 ih2 => rw [generateSchema_map, generateMapSchema_eq]; rfl
  | string => rw [generateSchema_string]; rfl
  | int => rw [generateSchema_int]; rfl
  | int8 => rw [generateSchema_int8]; rfl
  | int16 => rw [generateSchema_int16]; rfl
  | int32 => rw [generateSchema_int32]; rfl
  | int64 => rw [generateSchema_int64]; rfl
  | uint => rw [generateSchema_uint]; rfl
  | uint8 => rw [generateSchema_uint8]; rfl
  | uint16 => rw [generateSchema_uint16]; rfl
  | uint32 => rw [generateSchema_uint32]; rfl
  | uint64 => rw [generateSchema_uint64]; rfl
  | float32 => rw [generateSchema_float32]; rfl
  | float64 => rw [generateSchema_float64]; rfl
  | bool => rw [generateSchema_bool]; rfl
  | interface => rw [generateSchema_interface]; rfl
  | otherKind s => rw [generateSchema_otherKind]; rfl

/-- The pointer-dereferencing loop of generateSchema in isolation. -/
def stripPtr : GoType → GoType
  | .ptr e => stripPtr e
  | t => t

theorem generateSchema_stripPtr (env : TypeEnv) (t : GoType) (seen : List Nat) :
    generateSchema env t seen = generateSchema env (stripPtr t) seen := by
  induction t with
  | ptr e ih => rw [generateSchema_ptr, ih]; rfl
  | struct id => rfl
  | slice e ih => rfl
  | array e ih => rfl
  | map k v ih1 ih2 => rfl
  | string => rfl
  | int => rfl
  | int8 => rfl
  | int16 => rfl
  | int32 => rfl
  | int64 => rfl
  | uint => rfl
  | uint8 => rfl
  | uint16 => rfl
  | uint32 => rfl
  | uint64 => rfl
  | float32 => rfl
  | float64 => rfl
  | bool => rfl
  | interface => rfl
  | otherKind s => rfl

/-- An n-fold pointer wrapping of a type. -/
def iterPtr : Nat → GoType → GoType
  | 0, t => t
  | n + 1, t => .ptr (iterPtr n t)

/-- When no binding for the key exists, Go map assignment appends. -/
theorem mapInsert_of_not_mem (props : List (String × Definition)) (k : String)
    (v : Definition) (hk : ∀ q ∈ props, q.1 ≠ k) :
    mapInsert props k v = props ++ [(k, v)] := by
  have hc : ¬ (props.any (fun p => decide (p.1 = k)) = true) := by
    simp only [List.any_eq_true, decide_eq_true_eq, not_exists, not_and]
    exact hk
  unfold mapInsert
  rw [if_neg hc]

/-- When the resolved names of the included fields are pairwise distinct (and
distinct from the accumulator's keys), the folded properties map is exactly
the accumulator followed by one entry per included field, in order. -/
theorem buildProps_nodup (env : TypeEnv) (seen : List Nat) :
    ∀ (flds : List GoField) (props : List (String × Definition)),
      ((flds.filter includedField).map fieldKey).Nodup →
      (∀ f ∈ flds, includedField f = true → ∀ q ∈ props, q.1 ≠ fieldKey f) →
      buildProps env seen flds props
        = props ++ (flds.filter includedField).map
            (fun f => (fieldKey f, processField env seen f)) := by
  intro flds
  induction flds with
  | nil =>
    intro props _ _
    simp [buildProps]
  | cons f rest ih =>
    intro props hnd hdis
    by_cases hinc : includedField f = true
    · rw [buildProps_cons_incl env seen f rest props hinc]
      rw [mapInsert_of_not_mem props (fieldKey f) (processField env seen f)
        (fun q hq => hdis f (by simp) hinc q hq)]
      have hnd2 : fieldKey f ∉ (rest.filter includedField).map fieldKey ∧
          ((rest.filter includedField).map fieldKey).Nodup := by
        rw [List.filter_cons] at hnd
        simp only [hinc, if_true, List.map_cons, List.nodup_cons] at hnd
        exact hnd
      have hdis2 : ∀ g ∈ rest, includedField g = true →
          ∀ q ∈ props ++ [(fieldKey f, processField env seen f)],
            q.1 ≠ fieldKey g := by
        intro g hg hgi q hq
        rcases List.mem_append.mp hq with hq | hq
        · exact hdis g (by simp [hg]) hgi q hq
        · simp only [List.mem_singleton] at hq
          rw [hq]
          show fieldKey f ≠ fieldKey g
          intro heq
          apply hnd2.1
          rw [heq]
          exact List.mem_map_of_mem fieldKey (List.mem_filter.mpr ⟨hg, hgi⟩)
      rw [ih (props ++ [(fieldKey f, processField env seen f)]) hnd2.2 hdis2]
      rw [List.filter_cons]
      simp only [hinc, if_true, List.map_cons, List.append_assoc,
        List.singleton_append]
    · have hincf : includedField f = false := by
        rw [← Bool.not_eq_true]
        exact hinc
      rw [buildProps_cons_skip env seen f rest props hincf]
      have hnd2 : ((rest.filter includedField).map fieldKey).Nodup := by
        rw [List.filter_cons] at hnd
        simpa only [hincf, Bool.false_eq_true, if_false] using hnd
      rw [ih props hnd2 (fun g hg => hdis g (by simp [hg]))]
      rw [List.filter_cons]
      simp only [hincf, Bool.false_eq_true, if_false]

/-- Marshaling the properties entries maps the serializer over the values. -/
theorem marshalProps_eq_map (l : List (String × Definition)) :
    marshalProps l = l.map (fun p => (p.1, marshalDefinition p.2)) := by
  induction l with
  | nil => rfl
  | cons p rest ih =>
    cases p with
    | mk k v => simp [marshalProps, ih]

/-! The claims. -/

/-- Claim C1: the generator is cycle-safe. (i) Guard: a struct id already on
the active path yields the empty-object Definition (Type = Object, empty
Properties map) with nil error instead of recursing. (ii) The marker is
pushed before the field walk, so a field of the struct whose type strips
(through pointers) to the struct itself generates exactly the empty-object
Definition at the recursive occurrence. (iii) The closed form of the struct
expansion: every field is processed against the same path `id :: seen` — the
marker is path-scoped, not accumulated across siblings. (iv) Hence a struct
id that is not an ancestor (not on `id :: seen`) appearing in a sibling
branch is schematised fully, via its own full expansion. -/
theorem C1_cycle_guard (env : TypeEnv) (id : Nat) (seen : List Nat) :
    (id ∈ seen → generateSchema env (.struct id) seen = (emptyObjectDef, none)) ∧
    (∀ _h : id ∉ seen, ∀ f ∈ lookupFields env id,
      stripPtr f.fieldType = .struct id →
      (generateSchema env f.fieldType (id :: seen)).1 = emptyObjectDef) ∧
    (∀ h : id ∉ seen,
      generateStructSchema env id seen h
        = (.mk DataType.Object "" none
            (some (buildProps env (id :: seen) (lookupFields env id) []))
            (requiredNames (lookupFields env id)) none none, none)) ∧
    (∀ j : Nat, j ∉ id :: seen →
      generateSchema env (.struct j) (id :: seen)
        = (.mk DataType.Object "" none
            (some (buildProps env (j :: id :: seen) (lookupFields env j) []))
            (requiredNames (lookupFields env j)) none none, none)) := by
  refine ⟨?_, ?_, ?_, ?_⟩
  · intro h
    exact generateSchema_struct_mem env id seen h
  · intro _h f _hf hstrip
    rw [generateSchema_stripPtr, hstrip,
      generateSchema_struct_mem env id (id :: seen) (by simp)]
  · intro h
    exact generateStructSchema_eq env id seen h
  · intro j hj
    exact generateSchema_struct_eq env j (id :: seen) hj

/-- A self-referential struct: `type Node struct \x7b Next *Node \x7d`,
plus an unrelated empty struct. -/
def envC1 : TypeEnv :=
  [(0, [⟨"Next", true, "next", "", "", .ptr (.struct 0)⟩]), (1, [])]

/-- Witness for C1 at the self-referential struct `envC1`. -/
theorem C1_cycle_guard_witness :
    generateSchema envC1 (.struct 0) [0] = (emptyObjectDef, none) ∧
    (generateSchema envC1 (.ptr (.struct 0)) [0]).1 = emptyObjectDef ∧
    generateStructSchema envC1 0 [] (List.not_mem_nil 0)
      = (.mk DataType.Object "" none
          (some (buildProps envC1 [0] (lookupFields envC1 0) []))
          (requiredNames (lookupFields envC1 0)) none none, none) ∧
    generateSchema envC1 (.struct 1) [0]
      = (.mk DataType.Object "" none
          (some (buildProps envC1 [1, 0] (lookupFields envC1 1) []))
          (requiredNames (lookupFields envC1 1)) none none, none) :=
  ⟨(C1_cycle_guard envC1 0 [0]).1 (by decide),
   (C1_cycle_guard envC1 0 []).2.1 (List.not_mem_nil 0)
     ⟨"Next", true, "next", "", "", .ptr (.struct 0)⟩ (by decide) rfl,
   (C1_cycle_guard envC1 0 []).2.2.1 (List.not_mem_nil 0),
   (C1_cycle_guard envC1 0 []).2.2.2 1 (by decide)⟩

/-- Claim C7: the kind-dispatch table — every integer kind maps to Integer,
floats to Number, bool to Boolean, string to String, interface to the empty
Definition, maps to Object with an empty (allocated) Properties map, and
every unrecognized kind falls back to String; all with nil error. -/
theorem C7_kind_mapping (env : TypeEnv) (seen : List Nat) (k v : GoType)
    (s : String) :
    generateSchema env .int seen
      = (.mk DataType.Integer "" none none [] none none, none) ∧
    generateSchema env .int8 seen
      = (.mk DataType.Integer "" none none [] none none, none) ∧
    generateSchema env .int16 seen
      = (.mk DataType.Integer "" none none [] none none, none) ∧
    generateSchema env .int32 seen
      = (.mk DataType.Integer "" none none [] none none, none) ∧
    generateSchema env .int64 seen
      = (.mk DataType.Integer "" none none [] none none, none) ∧
    generateSchema env .uint seen
      = (.mk DataType.Integer "" none none [] none none, none) ∧
    generateSchema env .uint8 seen
      = (.mk DataType.Integer "" none none [] none none, none) ∧
    generateSchema env .uint16 seen
      = (.mk DataType.Integer "" none none [] none none, none) ∧
    generateSchema env .uint32 seen
      = (.mk DataType.Integer "" none none [] none none, none) ∧
    generateSchema env .uint64 seen
      = (.mk DataType.Integer "" none none [] none none, none) ∧
    generateSchema env .float32 seen
      = (.mk DataType.Number "" none none [] none none, none) ∧
    generateSchema env .float64 seen
      = (.mk DataType.Number "" none none [] none none, none) ∧
    generateSchema env .bool seen
      = (.mk DataType.Boolean "" none none [] none none, none) ∧
    generateSchema env .string seen
      = (.mk DataType.String "" none none [] none none, none) ∧
    generateSchema env .interface seen = (Definition.empty, none) ∧
    generateSchema env (.map k v) seen
      = (.mk DataType.Object "" none (some []) [] none none, none) ∧
    generateSchema env (.otherKind s) seen
      = (.mk DataType.String "" none none [] none none, none) := by
  refine ⟨generateSchema_int env seen, generateSchema_int8 env seen,
    generateSchema_int16 env seen, generateSchema_int32 env seen,
    generateSchema_int64 env seen, generateSchema_uint env seen,
    generateSchema_uint8 env seen, generateSchema_uint16 env seen,
    generateSchema_uint32 env seen, generateSchema_uint64 env seen,
    generateSchema_float32 env seen, generateSchema_float64 env seen,
    generateSchema_bool env seen, generateSchema_string env seen,
    generateSchema_interface env seen, ?_, generateSchema_otherKind env s seen⟩
  rw [generateSchema_map, generateMapSchema_eq]

/-- Claim C8: pointer transparency — a pointer type (and any chain of
pointers) generates the same Definition as the pointed-to type, for every
cycle-guard state. -/
theorem C8_pointer_transparent (env : TypeEnv) (t : GoType) (seen : List Nat)
    (n : Nat) :
    generateSchema env (.ptr t) seen = generateSchema env t seen ∧
    generateSchema env (iterPtr n t) seen = generateSchema env t seen := by
  refine ⟨generateSchema_ptr env t seen, ?_⟩
  induction n with
  | zero => rfl
  | succ m ih => rw [iterPtr, generateSchema_ptr, ih]

/-- Claim C9: no branch of the generator ever constructs a non-nil error:
for any type the public entry point returns the generated pair, and the error
component of every generator function is nil on all inputs. -/
theorem C9_no_error (env : TypeEnv) (t : GoType) (seen : List Nat) (id : Nat) :
    GenerateSchemaForType env (some t) = some (generateSchema env t []) ∧
    (generateSchema env t seen).2 = none ∧
    (∀ h : id ∉ seen, (generateStructSchema env id seen h).2 = none) ∧
    (generateArraySchema env t seen).2 = none ∧
    (generateMapSchema env t seen).2 = none ∧
    (GenerateSchemaForType env (some t)).map Prod.snd = some none := by
  refine ⟨rfl, (generateSchema_ok env t seen).1,
    fun h => (generateStructSchema_ok env id seen h).1,
    (generateArraySchema_ok env t seen).1,
    (generateMapSchema_ok env t seen).1, ?_⟩
  show some (generateSchema env t []).2 = some none
  rw [(generateSchema_ok env t []).1]

/-- Witness for C9 at a concrete struct expansion. -/
theorem C9_no_error_witness :
    (generateStructSchema envC1 0 [] (List.not_mem_nil 0)).2 = none :=
  (C9_no_error envC1 .int [] 0).2.2.1 (List.not_mem_nil 0)

/-- Claim C10: an untyped nil input gives the generator a nil reflect.Type;
the immediate Kind() call panics, so the entry point produces no
(Definition, error) pair at all — modeled as the `none` result. -/
theorem C10_nil_input (env : TypeEnv) :
    GenerateSchemaForType env none = none := rfl

/-- Claim C2: the serialized object of every Definition — including the zero
value and (since the conclusion is universally quantified over the nodes
stored under Properties and Items, which are marshaled by the same function)
every nested node — carries a "properties" key, mapping to the empty object
whenever Properties is nil or empty, and never absent; every other
absent/zero-valued field is omitted. -/
theorem C2_properties_always_emitted (d : Definition) :
    (marshalDefinition d).objLookup "properties"
      = some (Json.obj (sortByKey ((d.properties.getD []).map
          (fun p => (p.1, marshalDefinition p.2))))) ∧
    (d.properties = none ∨ d.properties = some [] →
      (marshalDefinition d).objLookup "properties" = some (Json.obj [])) ∧
    (marshalDefinition d).objLookup "properties" ≠ none ∧
    (∀ child, d.items = some child →
      (marshalDefinition d).objLookup "items" = some (marshalDefinition child)) ∧
    (d.dataType = "" → (marshalDefinition d).objLookup "type" = none) ∧
    (d.description = "" → (marshalDefinition d).objLookup "description" = none) ∧
    (d.enum = none ∨ d.enum = some [] →
      (marshalDefinition d).objLookup "enum" = none) ∧
    (d.required = [] → (marshalDefinition d).objLookup "required" = none) ∧
    (d.items = none → (marshalDefinition d).objLookup "items" = none) ∧
    (d.additionalProperties = none →
      (marshalDefinition d).objLookup "additionalProperties" = none) := by
  obtain ⟨hty, hds, hen, hpr, hrq, hit, hap⟩ := marshal_objLookup d
  refine ⟨?_, ?_, ?_, ?_, ?_, ?_, ?_, ?_, ?_, ?_⟩
  · rw [hpr]
    cases hp : d.properties with
    | none => rfl
    | some l => simp [marshalPropsOpt, marshalProps_eq_map]
  · intro hcase
    rw [hpr]
    rcases hcase with hc | hc <;> rw [hc] <;> rfl
  · rw [hpr]
    simp
  · intro child hchild
    rw [hit, hchild]
    rfl
  · intro h0
    rw [hty, if_pos h0]
  · intro h0
    rw [hds, if_pos h0]
  · intro hcase
    rw [hen]
    rcases hcase with hc | hc <;> rw [hc] <;> rfl
  · intro h0
    rw [hrq, h0]
  · intro h0
    rw [hit, h0]
    rfl
  · intro h0
    rw [hap, h0]
    rfl

/-- Witness for C2 at the zero-value Definition and at the empty-object node
(allocated empty Properties map). -/
theorem C2_properties_always_emitted_witness :
    (marshalDefinition Definition.empty).objLookup "properties"
        = some (Json.obj []) ∧
    (marshalDefinition Definition.empty).objLookup "type" = none ∧
    (marshalDefinition Definition.empty).objLookup "description" = none ∧
    (marshalDefinition Definition.empty).objLookup "enum" = none ∧
    (marshalDefinition Definition.empty).objLookup "required" = none ∧
    (marshalDefinition Definition.empty).objLookup "items" = none ∧
    (marshalDefinition Definition.empty).objLookup "additionalProperties" = none ∧
    (marshalDefinition emptyObjectDef).objLookup "properties"
        = some (Json.obj []) ∧
    (marshalDefinition (.mk DataType.Array "" none none []
        (some Definition.empty) none)).objLookup "items"
      = some (marshalDefinition Definition.empty) :=
  ⟨(C2_properties_always_emitted Definition.empty).2.1 (Or.inl rfl),
   (C2_properties_always_emitted Definition.empty).2.2.2.2.1 rfl,
   (C2_properties_always_emitted Definition.empty).2.2.2.2.2.1 rfl,
   (C2_properties_always_emitted Definition.empty).2.2.2.2.2.2.1 (Or.inl rfl),
   (C2_properties_always_emitted Definition.empty).2.2.2.2.2.2.2.1 rfl,
   (C2_properties_always_emitted Definition.empty).2.2.2.2.2.2.2.2.1 rfl,
   (C2_properties_always_emitted Definition.empty).2.2.2.2.2.2.2.2.2 rfl,
   (C2_properties_always_emitted emptyObjectDef).2.1 (Or.inr rfl),
   (C2_properties_always_emitted (.mk DataType.Array "" none none []
       (some Definition.empty) none)).2.2.2.1 Definition.empty rfl⟩

/-- Claim C3: additionalProperties is tri-state — the serialized object holds
the key with literal false exactly when the field is set to false, with
literal true exactly when set to true, and omits the key exactly when the
field is unset (never null, which the JSON model cannot even express). -/
theorem C3_additionalProperties_tristate (d : Definition) :
    ((marshalDefinition d).objLookup "additionalProperties"
        = some (Json.bool false) ↔ d.additionalProperties = some false) ∧
    ((marshalDefinition d).objLookup "additionalProperties"
        = some (Json.bool true) ↔ d.additionalProperties = some true) ∧
    ((marshalDefinition d).objLookup "additionalProperties" = none
        ↔ d.additionalProperties = none) := by
  have hap := (marshal_objLookup d).2.2.2.2.2.2
  rw [hap]
  cases hb : d.additionalProperties with
  | none => simp
  | some b => cases b <;> simp

/-- Claim C4 (amended): a field with a non-empty enum tag gets the tag's
comma-separated values, in declared order, as the child's Enum; the split of
a non-empty tag is never the empty list, and no node of any generated tree
carries a present-but-empty enum; a field with an empty (absent) enum tag
yields a child with no enum constraint. The elements are NOT deduplicated
(see the counterexample), and generation never fails on any tag value. -/
theorem C4_enum_tag (env : TypeEnv) (seen : List Nat) (f : GoField)
    (t : GoType) :
    (f.enumTag ≠ "" →
      (processField env seen f).enum = some (splitComma f.enumTag)) ∧
    (f.enumTag ≠ "" → splitComma f.enumTag ≠ []) ∧
    (f.enumTag = "" → (processField env seen f).enum = none) ∧
    (∀ n ∈ (generateSchema env t seen).1.nodes, n.enum ≠ some []) := by
  refine ⟨?_, fun _ => splitComma_ne_nil _, ?_,
    (generateSchema_ok env t seen).2⟩
  · intro hne
    unfold processField
    rw [if_pos hne]
    exact enum_setEnum _ _
  · intro h0
    unfold processField
    rw [if_neg (by simp [h0])]
    by_cases hd : f.descTag ≠ ""
    · rw [if_pos hd, enum_setDescription]
      exact generateSchema_root_enum env f.fieldType seen
    · rw [if_neg hd]
      exact generateSchema_root_enum env f.fieldType seen

/-- A struct with a duplicated enum tag value:
`State string` tagged json:"state" and a jsonschema enum tag "a,a". -/
def envC4 : TypeEnv := [(4, [⟨"State", true, "state", "", "a,a", .string⟩])]

/-- Counterexample to C4 as stated: the enum tag "a,a" produces the enum list
["a", "a"], whose elements are not unique — the generator does not enforce
uniqueness, contrary to the claim. -/
theorem C4_enum_tag_counterexample :
    ((generateSchema envC4 (.struct 4) []).1.properties.getD []).map
        (fun q => (q.1, q.2.enum)) = [("state", some ["a", "a"])] ∧
    ¬ (["a", "a"] : List String).Nodup := by
  constructor
  · rw [generateSchema_struct_eq envC4 4 [] (List.not_mem_nil 4)]
    simp only [Definition.properties, Option.getD, buildProps, lookupFields,
      List.lookup, List.foldl, includedField, fieldKey, processField,
      generateSchema_string, mapInsert, hasOmitempty, Definition.setEnum,
      Definition.setDescription, Definition.enum, List.map]
    decide
  · decide

/-- Witness for the amended C4 at the same struct: the stored child for the
"State" field carries exactly the split of the tag. -/
theorem C4_enum_tag_witness :
    (processField envC4 [4] ⟨"State", true, "state", "", "a,a", .string⟩).enum
        = some (splitComma "a,a") ∧
    splitComma "a,a" ≠ [] ∧
    (processField envC4 [4] ⟨"State", true, "state", "", "", .string⟩).enum
        = none :=
  ⟨(C4_enum_tag envC4 [4] ⟨"State", true, "state", "", "a,a", .string⟩
      .string).1 (by decide),
   (C4_enum_tag envC4 [4] ⟨"State", true, "state", "", "a,a", .string⟩
      .string).2.1 (by decide),
   (C4_enum_tag envC4 [4] ⟨"State", true, "state", "", "", .string⟩
      .string).2.2.1 rfl⟩

/-- Two exported fields whose json tags resolve to the same name "x". -/
def envC5 : TypeEnv :=
  [(5, [⟨"A", true, "x", "", "", .string⟩, ⟨"B", true, "x", "", "", .string⟩])]

/-- Counterexample to C5 as stated: a struct with 2 exported, non-skipped
fields whose resolved names collide produces a Properties map with a single
entry (the later assignment overwrites the earlier one), not 2. -/
theorem C5_properties_count_counterexample :
    (lookupFields envC5 5).length = 2 ∧
    (lookupFields envC5 5).all includedField = true ∧
    ((generateSchema envC5 (.struct 5) []).1.properties.getD []).length = 1 := by
  refine ⟨rfl, rfl, ?_⟩
  rw [generateSchema_struct_eq envC5 5 [] (List.not_mem_nil 5)]
  simp only [Definition.properties, Option.getD, buildProps, lookupFields,
    List.lookup, List.foldl, includedField, fieldKey, processField,
    generateSchema_string, mapInsert, hasOmitempty, Definition.setEnum,
    Definition.setDescription, List.map]
  decide

/-- Claim C5 (amended): for a struct whose included (exported, non-skipped)
fields have pairwise distinct resolved names, the generated Definition is an
object with exactly one Properties entry per included field, keyed by the
resolved name — the json tag's name part when non-empty, the field name
otherwise (that fallback being the definition of `resolveFieldName`). -/
theorem C5_properties_count (env : TypeEnv) (id : Nat) (seen : List Nat)
    (h : id ∉ seen)
    (hnd : (((lookupFields env id).filter includedField).map fieldKey).Nodup) :
    (generateStructSchema env id seen h).1.dataType = DataType.Object ∧
    (generateStructSchema env id seen h).1.properties
      = some (((lookupFields env id).filter includedField).map
          (fun f => (fieldKey f, processField env (id :: seen) f))) ∧
    ((generateStructSchema env id seen h).1.properties.getD []).length
      = ((lookupFields env id).filter includedField).length ∧
    ((generateStructSchema env id seen h).1.properties.getD []).map Prod.fst
      = ((lookupFields env id).filter includedField).map fieldKey := by
  rw [generateStructSchema_eq env id seen h]
  have hb := buildProps_nodup env (id :: seen) (lookupFields env id) [] hnd
    (by simp)
  refine ⟨rfl, ?_, ?_, ?_⟩
  · simp only [Definition.properties]
    rw [hb, List.nil_append]
  · simp only [Definition.properties, Option.getD]
    rw [hb, List.nil_append, List.length_map]
  · simp only [Definition.properties, Option.getD]
    rw [hb, List.nil_append, List.map_map]
    rfl

/-- A struct with two distinct resolved names. -/
def envC5w : TypeEnv :=
  [(6, [⟨"Name", true, "name", "", "", .string⟩,
        ⟨"Age", true, "age", "", "", .int⟩])]

/-- Witness for the amended C5: two included fields, two properties. -/
theorem C5_properties_count_witness :
    (generateStructSchema envC5w 6 [] (List.not_mem_nil 6)).1.dataType
        = DataType.Object ∧
    ((generateStructSchema envC5w 6 [] (List.not_mem_nil 6)).1.properties.getD
        []).length = ((lookupFields envC5w 6).filter includedField).length :=
  ⟨(C5_properties_count envC5w 6 [] (List.not_mem_nil 6) (by decide)).1,
   (C5_properties_count envC5w 6 [] (List.not_mem_nil 6) (by decide)).2.2.1⟩

/-- Claim C6: the Required list of a generated struct Definition is exactly
the resolved names of the included fields without the omitempty marker, in
field declaration order (filter and map preserve the declaration order); so
every included field lacking omitempty appears under its resolved name, and
every Required entry stems from a field without omitempty. -/
theorem C6_required (env : TypeEnv) (id : Nat) (seen : List Nat)
    (h : id ∉ seen) :
    (generateStructSchema env id seen h).1.required
        = requiredNames (lookupFields env id) ∧
    (∀ f ∈ lookupFields env id, includedField f = true →
      hasOmitempty f.jsonTag = false →
      fieldKey f ∈ (generateStructSchema env id seen h).1.required) ∧
    (∀ n ∈ (generateStructSchema env id seen h).1.required,
      ∃ f, f ∈ lookupFields env id ∧ includedField f = true ∧
        hasOmitempty f.jsonTag = false ∧ n = fieldKey f) := by
  rw [generateStructSchema_eq env id seen h]
  refine ⟨rfl, ?_, ?_⟩
  · intro f hf hinc homit
    simp only [Definition.required, requiredNames]
    exact List.mem_map_of_mem fieldKey
      (List.mem_filter.mpr ⟨hf, by simp [hinc, homit]⟩)
  · intro n hn
    simp only [Definition.required, requiredNames] at hn
    rcases List.mem_map.mp hn with ⟨f, hf, heq⟩
    rcases List.mem_filter.mp hf with ⟨hfl, hcond⟩
    simp only [Bool.and_eq_true, Bool.not_eq_true'] at hcond
    exact ⟨f, hfl, hcond.1, hcond.2, heq.symm⟩

/-- A struct with one plain field and one omitempty field. -/
def envC6 : TypeEnv :=
  [(7, [⟨"Name", true, "name", "", "", .string⟩,
        ⟨"Opt", true, "optional,omitempty", "", "", .string⟩])]

/-- Witness for C6: "name" (no omitempty) is required, and the whole list is
the closed-form required names. -/
theorem C6_required_witness :
    (generateStructSchema envC6 7 [] (List.not_mem_nil 7)).1.required
        = requiredNames (lookupFields envC6 7) ∧
    fieldKey ⟨"Name", true, "name", "", "", .string⟩
        ∈ (generateStructSchema envC6 7 [] (List.not_mem_nil 7)).1.required :=
  ⟨(C6_required envC6 7 [] (List.not_mem_nil 7)).1,
   (C6_required envC6 7 [] (List.not_mem_nil 7)).2.1
     ⟨"Name", true, "name", "", "", .string⟩ (by decide) (by decide) (by decide)⟩
